import Mathlib

/-!
Verification of the VoxelViz per-axis LOD scheduler.

Shallow embedding of `src/main.py` (`OMEZarrOrthoViewer`): the per-axis
progressive level-of-detail scheduler (`update_loop`), the user-input path
(`on_slider_move`), the pyramid-load/refresh protocol (`load_active_group`,
`force_refresh`) and the slice-extraction arithmetic of `render_slice`
(coordinate mapping and 16-bit → 8-bit normalization).

Modelling choices:
* Wall-clock timestamps (`time.time()`) are rational numbers `ℚ`; the tick
  never generates them, they enter as parameters, exactly as the Python code
  reads `time.time()` at its call sites.  `DEBOUNCE_TIME = 0.2` is `1/5 : ℚ`.
* Slice indices are integers `ℤ` (the sentinel `-1` must be representable).
* The resolution levels are naturals; `HIGH_RES = 0` and `LOW_RES` is
  `len(pyramid) - 1`, passed around as the `lowRes` parameter because it is
  an attribute set by `load_active_group`.
* A call to `render_slice(axis, level0_index, level)` is recorded as a
  `RenderCall`; `update_loop` returns the list of calls it makes, in the
  order the Python loop makes them.
* The real-valued coordinate mapping `int(level0_index * (sL / s0))` of
  `render_slice` is embedded with exact arithmetic as `(i * sL) / s0` in ℕ
  (floor of the exact rational, which `int` computes for non-negative
  values); IEEE rounding of the Python `float` ratio is not modelled.
-/

namespace VoxelViz

/-- Constant `self.HIGH_RES = 0` (src/main.py line 22): level 0 is the finest. -/
def HIGH_RES : ℕ := 0

/-- Constant `self.DEBOUNCE_TIME = 0.2` (src/main.py line 23), as the exact rational. -/
def DEBOUNCE_TIME : ℚ := 1/5

/-- Per-axis mutable state: one slot of the parallel lists `self.indices`,
`self.last_rendered_indices`, `self.rendered_levels` of the viewer. -/
structure AxisState where
  index : ℤ
  lastRenderedIndex : ℤ
  renderedLevel : ℕ
  deriving DecidableEq, Repr

/-- The scheduler-visible viewer state: the three `AxisState`s plus the
shared `self.last_interaction` timestamp. -/
structure ViewerState where
  axes : Fin 3 → AxisState
  lastInteraction : ℚ

/-- One call `self.render_slice(axis, level0_index, level)`. -/
structure RenderCall where
  axis : Fin 3
  index : ℤ
  level : ℕ
  deriving DecidableEq, Repr

/-- The flag `is_moving = (now - self.last_interaction) < self.DEBOUNCE_TIME`
(src/main.py line 126). -/
def is_moving (now lastInteraction : ℚ) : Bool :=
  decide (now - lastInteraction < DEBOUNCE_TIME)

/-- The body of the `for i in range(3)` loop of `update_loop`
(src/main.py lines 128-139) for one axis: returns the new `AxisState` and,
when a render happens, the level passed to `render_slice`. -/
def step_axis (lowRes : ℕ) (m : Bool) (a : AxisState) : AxisState × Option ℕ :=
  if a.index ≠ a.lastRenderedIndex then
    ({ a with lastRenderedIndex := a.index, renderedLevel := lowRes }, some lowRes)
  else if m = false ∧ HIGH_RES < a.renderedLevel then
    ({ a with renderedLevel := a.renderedLevel - 1 }, some (a.renderedLevel - 1))
  else
    (a, none)

/-- The render calls axis `i` contributes to a tick: `render_slice` is called
with the axis's current `self.indices[i]` and the chosen level. -/
def axis_renders (i : Fin 3) (a : AxisState) (o : Option ℕ) : List RenderCall :=
  match o with
  | none => []
  | some lvl => [⟨i, a.index, lvl⟩]

/-- Tick `update_loop` (src/main.py lines 123-139): computes `is_moving` once,
then processes the three axes in order; returns the new state and the list
of `render_slice` calls in the order they are made. -/
def update_loop (lowRes : ℕ) (now : ℚ) (s : ViewerState) :
    ViewerState × List RenderCall :=
  let m := is_moving now s.lastInteraction
  let p0 := step_axis lowRes m (s.axes 0)
  let p1 := step_axis lowRes m (s.axes 1)
  let p2 := step_axis lowRes m (s.axes 2)
  ({ s with axes := fun i => if i = 0 then p0.1 else if i = 1 then p1.1 else p2.1 },
    axis_renders 0 (s.axes 0) p0.2 ++ axis_renders 1 (s.axes 1) p1.2
      ++ axis_renders 2 (s.axes 2) p2.2)

/-- The render calls of a tick that go to axis `i`. -/
def rendersFor (i : Fin 3) (rs : List RenderCall) : List RenderCall :=
  rs.filter (fun r => decide (r.axis = i))

/-- Handler `on_slider_move` (src/main.py lines 116-121): writes `int(val)` into
`self.indices[axis]`, stamps `self.last_interaction = time.time()`, and
updates a UI text label.  It calls `render_slice` zero times, hence the
empty render list.  Note: no clamping happens here; the slider widget's
`min`/`max` are the only range enforcement. -/
def on_slider_move (s : ViewerState) (axis : Fin 3) (val : ℤ) (now : ℚ) :
    ViewerState × List RenderCall :=
  ({ s with
      axes := fun b => if b = axis then { s.axes b with index := val } else s.axes b,
      lastInteraction := now }, [])

/-- Method `force_refresh` (src/main.py lines 189-192): sentinel `-1` into every
`last_rendered_indices` slot and `LOW_RES` into every `rendered_levels`
slot; `self.last_interaction` is untouched. -/
def force_refresh (lowRes : ℕ) (s : ViewerState) : ViewerState :=
  { s with
      axes := fun i =>
        { s.axes i with lastRenderedIndex := -1, renderedLevel := lowRes } }

/-- The state-reset part of `load_active_group` (src/main.py lines 108-114):
every axis's index is centered (`s // 2` of the level-0 shape), the
last-rendered indices are the sentinel `-1`, the rendered levels are
`LOW_RES = len(pyramid) - 1`, and the interaction timestamp is stamped.
`shapes` lists, finest first, the per-level shapes as maps axis → extent. -/
def load_active_group (shapes : List (Fin 3 → ℕ)) (now : ℚ) : ViewerState :=
  { axes := fun i =>
      { index := ((shapes.getD 0 (fun _ => 0)) i) / 2
        lastRenderedIndex := -1
        renderedLevel := shapes.length - 1 }
    lastInteraction := now }

/-- Coordinate mapping of `render_slice` (src/main.py lines 143-146), in
exact arithmetic: `scale_factor = sL / s0`, `scaled_index = int(i * scale_factor)`
is `(i * sL) / s0` (ℕ floor division), then `min(·, sL - 1)`. -/
def scaled_index (s0 sL i : ℕ) : ℕ :=
  min ((i * sL) / s0) (sL - 1)

/-- Per-sample normalization of `render_slice` (src/main.py line 160):
`(x >> 8).astype(np.uint8)`; the `% 256` embeds the `uint8` truncation. -/
def normalize_16_to_8 (x : ℕ) : ℕ :=
  (x >>> 8) % 256

/-- Plane selection of `render_slice` (src/main.py lines 150-155): fixing
the scheduled axis at the scaled index, the other two dimensions form the
output image. -/
def extract_plane (vol : ℕ → ℕ → ℕ → ℕ) (axis : Fin 3) (si : ℕ) :
    ℕ → ℕ → ℕ :=
  fun u v =>
    if axis = 0 then vol si u v
    else if axis = 1 then vol u si v
    else vol u v si

/-- The flag `is_moving` is false once the debounce window has elapsed. -/
lemma is_moving_eq_false {now lastInteraction : ℚ}
    (h : DEBOUNCE_TIME ≤ now - lastInteraction) :
    is_moving now lastInteraction = false := by
  simp [is_moving]
  exact h

/-- The flag `is_moving` is true within the debounce window. -/
lemma is_moving_eq_true {now lastInteraction : ℚ}
    (h : now - lastInteraction < DEBOUNCE_TIME) :
    is_moving now lastInteraction = true := by
  simp [is_moving]
  exact h

/-- Axis `i` with a fresh index: step 1 of `update_loop` fires. -/
lemma step_axis_of_ne {a : AxisState} (lowRes : ℕ) (m : Bool)
    (h : a.index ≠ a.lastRenderedIndex) :
    step_axis lowRes m a =
      ({ a with lastRenderedIndex := a.index, renderedLevel := lowRes }, some lowRes) := by
  rw [step_axis, if_pos h]

/-- Axis `i` settled on its index, debounce elapsed, still coarse:
step 2 of `update_loop` fires. -/
lemma step_axis_sharpen {a : AxisState} (lowRes : ℕ)
    (h1 : a.index = a.lastRenderedIndex) (h2 : 0 < a.renderedLevel) :
    step_axis lowRes false a =
      ({ a with renderedLevel := a.renderedLevel - 1 }, some (a.renderedLevel - 1)) := by
  rw [step_axis, if_neg (by simpa using h1), if_pos ⟨rfl, h2⟩]

/-- Axis `i` settled and either still moving or already at `HIGH_RES`:
neither branch fires. -/
lemma step_axis_noop {a : AxisState} (lowRes : ℕ) (m : Bool)
    (h1 : a.index = a.lastRenderedIndex)
    (h2 : m = true ∨ a.renderedLevel = 0) :
    step_axis lowRes m a = (a, none) := by
  rw [step_axis, if_neg (by simpa using h1), if_neg]
  rintro ⟨hm, hl⟩
  rcases h2 with h2 | h2
  · rw [h2] at hm; cases hm
  · rw [h2] at hl; exact absurd hl (by simp [HIGH_RES])

/-- The tick updates each axis independently through `step_axis`. -/
lemma update_loop_axes (lowRes : ℕ) (now : ℚ) (s : ViewerState) (i : Fin 3) :
    (update_loop lowRes now s).1.axes i =
      (step_axis lowRes (is_moving now s.lastInteraction) (s.axes i)).1 := by
  fin_cases i <;> rfl

/-- The tick does not touch the interaction timestamp. -/
lemma update_loop_lastInteraction (lowRes : ℕ) (now : ℚ) (s : ViewerState) :
    (update_loop lowRes now s).1.lastInteraction = s.lastInteraction := rfl

lemma rendersFor_append (i : Fin 3) (xs ys : List RenderCall) :
    rendersFor i (xs ++ ys) = rendersFor i xs ++ rendersFor i ys :=
  List.filter_append xs ys

lemma rendersFor_axis_renders (i j : Fin 3) (a : AxisState) (o : Option ℕ) :
    rendersFor i (axis_renders j a o) =
      if j = i then axis_renders j a o else [] := by
  cases o with
  | none => simp [axis_renders, rendersFor]
  | some lvl =>
      by_cases h : j = i <;> simp [axis_renders, rendersFor, h]

/-- The render calls of a tick that target axis `i` are exactly the ones
axis `i`'s own `step_axis` decision produces. -/
lemma update_loop_rendersFor (lowRes : ℕ) (now : ℚ) (s : ViewerState) (i : Fin 3) :
    rendersFor i (update_loop lowRes now s).2 =
      axis_renders i (s.axes i)
        (step_axis lowRes (is_moving now s.lastInteraction) (s.axes i)).2 := by
  show rendersFor i (_ ++ _ ++ _) = _
  rw [rendersFor_append, rendersFor_append,
    rendersFor_axis_renders, rendersFor_axis_renders, rendersFor_axis_renders]
  fin_cases i <;> simp

/-- C1. For every axis, on a tick where `index ≠ lastRenderedIndex`, the
tick renders that axis at `LOW_RES` — for every `now`, i.e. regardless of
`is_moving` — then sets `lastRenderedIndex := index` and
`renderedLevel := LOW_RES`, discarding any sharpening progress. -/
theorem stale_axis_renders_low_res (lowRes : ℕ) (now : ℚ) (s : ViewerState)
    (i : Fin 3) (h : (s.axes i).index ≠ (s.axes i).lastRenderedIndex) :
    rendersFor i (update_loop lowRes now s).2 = [⟨i, (s.axes i).index, lowRes⟩] ∧
    ((update_loop lowRes now s).1.axes i).lastRenderedIndex = (s.axes i).index ∧
    ((update_loop lowRes now s).1.axes i).renderedLevel = lowRes := by
  rw [update_loop_rendersFor, update_loop_axes, step_axis_of_ne lowRes _ h]
  exact ⟨rfl, rfl, rfl⟩

/-- Witness for C1: an axis mid-sharpening (`renderedLevel = 2` of
`lowRes = 4`) whose index just changed, on a tick well inside the debounce
window (`now - lastInteraction = 1/10 < 1/5`): the render is at `LOW_RES`
anyway and sharpening restarts from `LOW_RES`. -/
theorem stale_axis_renders_low_res_witness :
    rendersFor 0 (update_loop 4 (1/10)
        ⟨fun _ => ⟨60, 50, 2⟩, 0⟩).2 = [⟨0, 60, 4⟩] ∧
    ((update_loop 4 (1/10) ⟨fun _ => ⟨60, 50, 2⟩, 0⟩).1.axes 0).lastRenderedIndex = 60 ∧
    ((update_loop 4 (1/10) ⟨fun _ => ⟨60, 50, 2⟩, 0⟩).1.axes 0).renderedLevel = 4 :=
  stale_axis_renders_low_res 4 (1/10) ⟨fun _ => ⟨60, 50, 2⟩, 0⟩ 0 (by decide)

/-- C3. Idempotence of the per-tick evaluation: if every axis is settled on
its index and is either fully sharpened (`renderedLevel = HIGH_RES`) or
still inside the debounce window, the tick makes no render call and returns
the state unchanged. -/
theorem settled_tick_is_noop (lowRes : ℕ) (now : ℚ) (s : ViewerState)
    (h : ∀ i : Fin 3, (s.axes i).index = (s.axes i).lastRenderedIndex ∧
      ((s.axes i).renderedLevel = HIGH_RES ∨
        now - s.lastInteraction < DEBOUNCE_TIME)) :
    update_loop lowRes now s = (s, []) := by
  have hstep : ∀ i : Fin 3,
      step_axis lowRes (is_moving now s.lastInteraction) (s.axes i) =
        (s.axes i, none) := by
    intro i
    rcases h i with ⟨h1, h2 | h2⟩
    · exact step_axis_noop lowRes _ h1 (Or.inr h2)
    · exact step_axis_noop lowRes _ h1 (Or.inl (is_moving_eq_true h2))
  show (⟨_, _⟩, _ ++ _ ++ _) = (s, [])
  rw [hstep 0, hstep 1, hstep 2]
  refine Prod.ext ?_ rfl
  show ViewerState.mk _ s.lastInteraction = s
  have : (fun i : Fin 3 =>
      if i = 0 then s.axes 0 else if i = 1 then s.axes 1 else s.axes 2) = s.axes := by
    funext i; fin_cases i <;> rfl
  rw [this]

/-- Witness for C3: all three axes settled at `HIGH_RES`, debounce long
elapsed — the tick is a no-op. -/
theorem settled_tick_is_noop_witness :
    update_loop 4 10 ⟨fun _ => ⟨50, 50, 0⟩, 0⟩ =
      (⟨fun _ => ⟨50, 50, 0⟩, 0⟩, []) :=
  settled_tick_is_noop 4 10 ⟨fun _ => ⟨50, 50, 0⟩, 0⟩
    (fun _ => ⟨rfl, Or.inl rfl⟩)

/-- C4, counterexample. `on_slider_move` does NOT clamp: with a level-0
extent of `100` along axis 0 (valid range `[0, 99]`), moving the slider to
`150` writes `150` into `AxisState.index`, outside `[0, 100 - 1]`.  (In the
source the only range enforcement is the slider widget's `min`/`max`
configuration, not `on_slider_move` itself.) -/
theorem slider_move_does_not_clamp :
    ((on_slider_move ⟨fun _ => ⟨50, 50, 0⟩, 0⟩ 0 150 1).1.axes 0).index = 150 ∧
    ¬ (((on_slider_move ⟨fun _ => ⟨50, 50, 0⟩, 0⟩ 0 150 1).1.axes 0).index
        ≤ 100 - 1) := by
  constructor
  · rfl
  · intro hle
    have : (150 : ℤ) ≤ 99 := hle
    norm_num at this

/-- C4, amended. `on_slider_move` writes the incoming value into
`AxisState.index` unclamped and stamps `lastInteractionTime` with the
current time. -/
theorem slider_move_writes_index_and_timestamp (s : ViewerState) (a : Fin 3)
    (val : ℤ) (now : ℚ) :
    ((on_slider_move s a val now).1.axes a).index = val ∧
    (on_slider_move s a val now).1.lastInteraction = now := by
  refine ⟨?_, rfl⟩
  show AxisState.index (if a = a then _ else _) = val
  rw [if_pos rfl]

/-- C10. A slider move on axis `a` mutates only `indices[a]` and the shared
`lastInteraction`: every other axis's index, and every axis's
`lastRenderedIndex` and `renderedLevel`, are unchanged, and the move makes
no render call — only the next scheduler tick reacts. -/
theorem slider_move_frame_effect (s : ViewerState) (a : Fin 3) (val : ℤ)
    (now : ℚ) :
    (∀ b : Fin 3, ((on_slider_move s a val now).1.axes b).index =
      if b = a then val else (s.axes b).index) ∧
    (∀ b : Fin 3, ((on_slider_move s a val now).1.axes b).lastRenderedIndex =
      (s.axes b).lastRenderedIndex) ∧
    (∀ b : Fin 3, ((on_slider_move s a val now).1.axes b).renderedLevel =
      (s.axes b).renderedLevel) ∧
    (on_slider_move s a val now).1.lastInteraction = now ∧
    (on_slider_move s a val now).2 = [] := by
  refine ⟨fun b => ?_, fun b => ?_, fun b => ?_, rfl, rfl⟩ <;>
    by_cases hb : b = a <;> simp [on_slider_move, hb]

/-- Iterated ticks: `k` consecutive scheduler ticks (the `ui.timer(0.05, self.update_loop)`
firings), the `n`-th at wall-clock time `times n`; returns the final state
and all render calls in order. -/
def update_loopN (lowRes : ℕ) (times : ℕ → ℚ) :
    ℕ → ViewerState → ViewerState × List RenderCall
  | 0, s => (s, [])
  | k + 1, s =>
      let p := update_loop lowRes (times 0) s
      let q := update_loopN lowRes (fun n => times (n + 1)) k p.1
      (q.1, p.2 ++ q.2)

lemma update_loopN_succ (lowRes : ℕ) (times : ℕ → ℚ) (k : ℕ) (s : ViewerState) :
    update_loopN lowRes times (k + 1) s =
      ((update_loopN lowRes (fun n => times (n + 1)) k
          (update_loop lowRes (times 0) s).1).1,
        (update_loop lowRes (times 0) s).2 ++
          (update_loopN lowRes (fun n => times (n + 1)) k
            (update_loop lowRes (times 0) s).1).2) := rfl

/-- C2. Monotonic sharpening: for an axis settled on its index
(`index = lastRenderedIndex`), with every tick time past the debounce
window, `k` ticks render that axis at levels
`L-1, L-2, …, L-min k L` (one render and exactly one decrement per tick,
stopping at `HIGH_RES = 0`), where `L` is the starting `renderedLevel`;
afterwards `renderedLevel = L - k` (truncated), and the axis's index and
last-rendered index are untouched. -/
theorem sharpening_strictly_decreasing (lowRes : ℕ) (times : ℕ → ℚ)
    (s : ViewerState) (i : Fin 3) (k : ℕ)
    (hidx : (s.axes i).index = (s.axes i).lastRenderedIndex)
    (hdeb : ∀ n, DEBOUNCE_TIME ≤ times n - s.lastInteraction) :
    rendersFor i (update_loopN lowRes times k s).2 =
      (List.range (min k (s.axes i).renderedLevel)).map
        (fun j => ⟨i, (s.axes i).index, (s.axes i).renderedLevel - 1 - j⟩) ∧
    ((update_loopN lowRes times k s).1.axes i).renderedLevel =
      (s.axes i).renderedLevel - k ∧
    ((update_loopN lowRes times k s).1.axes i).index = (s.axes i).index ∧
    ((update_loopN lowRes times k s).1.axes i).lastRenderedIndex =
      (s.axes i).lastRenderedIndex := by
  induction k generalizing times s with
  | zero =>
      simp [update_loopN, rendersFor]
  | succ k ih =>
      have hm : is_moving (times 0) s.lastInteraction = false :=
        is_moving_eq_false (hdeb 0)
      have hlast : (update_loop lowRes (times 0) s).1.lastInteraction =
          s.lastInteraction := update_loop_lastInteraction ..
      rcases hL : (s.axes i).renderedLevel with _ | M
      · -- already at HIGH_RES: this tick and all later ones are no-ops for i
        have hstep : step_axis lowRes (is_moving (times 0) s.lastInteraction)
            (s.axes i) = (s.axes i, none) :=
          step_axis_noop lowRes _ hidx (Or.inr hL)
        have haxes : (update_loop lowRes (times 0) s).1.axes i = s.axes i := by
          rw [update_loop_axes, hstep]
        have hrec := ih (fun n => times (n + 1)) (update_loop lowRes (times 0) s).1
          (by rw [haxes]; exact hidx)
          (by intro n; rw [hlast]; exact hdeb (n + 1))
        rw [update_loopN_succ, rendersFor_append, update_loop_rendersFor, hstep]
        rw [haxes, hL] at hrec
        refine ⟨?_, ?_, ?_, ?_⟩
        · rw [hrec.1]
          simp [axis_renders, hL]
        · rw [hrec.2.1]
          omega
        · rw [hrec.2.2.1]
        · rw [hrec.2.2.2]
      · -- renderedLevel = M+1 > HIGH_RES: sharpen one step, then recurse
        have hstep : step_axis lowRes (is_moving (times 0) s.lastInteraction)
            (s.axes i) =
            ({ s.axes i with renderedLevel := (s.axes i).renderedLevel - 1 },
              some ((s.axes i).renderedLevel - 1)) := by
          rw [hm]
          exact step_axis_sharpen lowRes hidx (by rw [hL]; exact Nat.succ_pos M)
        have haxes : (update_loop lowRes (times 0) s).1.axes i =
            { s.axes i with renderedLevel := (s.axes i).renderedLevel - 1 } := by
          rw [update_loop_axes, hstep]
        have hrec := ih (fun n => times (n + 1)) (update_loop lowRes (times 0) s).1
          (by rw [haxes]; exact hidx)
          (by intro n; rw [hlast]; exact hdeb (n + 1))
        rw [haxes] at hrec
        dsimp only at hrec
        rw [update_loopN_succ, rendersFor_append, update_loop_rendersFor, hstep]
        refine ⟨?_, ?_, ?_, ?_⟩
        · rw [hrec.1, hL]
          simp only [axis_renders, Nat.add_sub_cancel, Nat.succ_min_succ,
            List.range_succ_eq_map, List.map_cons, List.map_map,
            List.cons_append, List.nil_append, Nat.sub_zero]
          refine congrArg₂ List.cons (by simp) ?_
          refine List.map_congr_left ?_
          intro j _
          simp only [Function.comp_apply]
          congr 1
          omega
        · rw [hrec.2.1]
          omega
        · rw [hrec.2.2.1]
        · rw [hrec.2.2.2]

/-- Witness for C2: an axis settled at index 50 with `renderedLevel = 2`;
three post-debounce ticks render levels 1 then 0, then nothing, ending at
`HIGH_RES = 0`. -/
theorem sharpening_strictly_decreasing_witness :
    rendersFor 0 (update_loopN 2 (fun _ => 1)
        3 ⟨fun _ => ⟨50, 50, 2⟩, 0⟩).2 = [⟨0, 50, 1⟩, ⟨0, 50, 0⟩] ∧
    ((update_loopN 2 (fun _ => 1) 3 ⟨fun _ => ⟨50, 50, 2⟩, 0⟩).1.axes 0).renderedLevel
      = 0 := by
  have h := sharpening_strictly_decreasing 2 (fun _ => 1)
    ⟨fun _ => ⟨50, 50, 2⟩, 0⟩ 0 3 rfl
    (fun n => by norm_num [DEBOUNCE_TIME])
  refine ⟨?_, h.2.1⟩
  rw [h.1]
  decide

/-- The render calls of one tick, axis by axis in loop order. -/
lemma update_loop_renders (lowRes : ℕ) (now : ℚ) (s : ViewerState) :
    (update_loop lowRes now s).2 =
      axis_renders 0 (s.axes 0)
        (step_axis lowRes (is_moving now s.lastInteraction) (s.axes 0)).2 ++
      axis_renders 1 (s.axes 1)
        (step_axis lowRes (is_moving now s.lastInteraction) (s.axes 1)).2 ++
      axis_renders 2 (s.axes 2)
        (step_axis lowRes (is_moving now s.lastInteraction) (s.axes 2)).2 := rfl

/-- C5. Coordinate-mapping safety (exact arithmetic): whenever the coarser
extent satisfies `1 ≤ sL ≤ s0`, the maximal level-0 index `s0 - 1` maps to
exactly `sL - 1`, and any level-0 index `i ≤ s0 - 1` maps (after the
`min` clamp of `render_slice`) into `[0, sL - 1]` — plane selection never
goes out of bounds. -/
theorem scaled_index_in_bounds (s0 sL i : ℕ) (h1 : 1 ≤ sL) (h2 : sL ≤ s0)
    (hi : i ≤ s0 - 1) :
    scaled_index s0 sL (s0 - 1) = sL - 1 ∧ scaled_index s0 sL i ≤ sL - 1 := by
  refine ⟨?_, min_le_right _ _⟩
  have hs0 : 0 < s0 := lt_of_lt_of_le h1 h2
  have hge : sL - 1 ≤ (s0 - 1) * sL / s0 := by
    rw [Nat.le_div_iff_mul_le hs0, Nat.sub_one_mul, Nat.sub_one_mul,
      Nat.mul_comm sL s0]
    exact Nat.sub_le_sub_left h2 (s0 * sL)
  exact min_eq_right hge

/-- Witness for C5: the spec's concrete pyramid, level-0 extent 100 and
level-2 extent 25; index 99 maps to 24, index 80 stays in bounds. -/
theorem scaled_index_in_bounds_witness :
    scaled_index 100 25 99 = 24 ∧ scaled_index 100 25 80 ≤ 24 :=
  scaled_index_in_bounds 100 25 80 (by decide) (by decide) (by decide)

/-- C6. After the state reset of `load_active_group`, every axis is
centered (`shape₀[axis] // 2`), sentinel-initialized
(`lastRenderedIndex = -1`) and coarse (`renderedLevel = LOW_RES`); the
first tick after `force_refresh` makes exactly three render calls, one per
axis, all at `LOW_RES`, at the centered level-0 indices — for any tick
time `t1`, since the sentinel comparison ignores `is_moving`. -/
theorem pyramid_reset_then_three_low_res_renders
    (shapes : List (Fin 3 → ℕ)) (t0 t1 : ℚ) :
    (∀ i : Fin 3,
      ((load_active_group shapes t0).axes i).index =
        ((shapes.getD 0 (fun _ => 0)) i) / 2 ∧
      ((load_active_group shapes t0).axes i).lastRenderedIndex = -1 ∧
      ((load_active_group shapes t0).axes i).renderedLevel = shapes.length - 1) ∧
    (update_loop (shapes.length - 1) t1
        (force_refresh (shapes.length - 1) (load_active_group shapes t0))).2 =
      [⟨0, ((shapes.getD 0 (fun _ => 0)) 0) / 2, shapes.length - 1⟩,
        ⟨1, ((shapes.getD 0 (fun _ => 0)) 1) / 2, shapes.length - 1⟩,
        ⟨2, ((shapes.getD 0 (fun _ => 0)) 2) / 2, shapes.length - 1⟩] := by
  refine ⟨fun i => ⟨rfl, rfl, rfl⟩, ?_⟩
  have hne : ∀ i : Fin 3,
      ((force_refresh (shapes.length - 1)
          (load_active_group shapes t0)).axes i).index ≠
        ((force_refresh (shapes.length - 1)
          (load_active_group shapes t0)).axes i).lastRenderedIndex := by
    intro i
    show ((((shapes.getD 0 (fun _ => 0)) i) / 2 : ℕ) : ℤ) ≠ -1
    omega
  rw [update_loop_renders, step_axis_of_ne _ _ (hne 0),
    step_axis_of_ne _ _ (hne 1), step_axis_of_ne _ _ (hne 2)]
  rfl

/-- C7. The `renderedLevel` invariant, over every operation of the system:
a tick either leaves an axis's `renderedLevel` no larger than before or
resets it to `LOW_RES` with that axis's index changed; a slider move never
touches any `renderedLevel`; `force_refresh` and the `load_active_group`
reset set every `renderedLevel` to `LOW_RES`. -/
theorem rendered_level_never_increases_without_index_change :
    (∀ (lowRes : ℕ) (now : ℚ) (s : ViewerState) (i : Fin 3),
      ((update_loop lowRes now s).1.axes i).renderedLevel ≤
          (s.axes i).renderedLevel ∨
        (((update_loop lowRes now s).1.axes i).renderedLevel = lowRes ∧
          (s.axes i).index ≠ (s.axes i).lastRenderedIndex)) ∧
    (∀ (s : ViewerState) (a : Fin 3) (val : ℤ) (now : ℚ) (i : Fin 3),
      ((on_slider_move s a val now).1.axes i).renderedLevel =
        (s.axes i).renderedLevel) ∧
    (∀ (lowRes : ℕ) (s : ViewerState) (i : Fin 3),
      ((force_refresh lowRes s).axes i).renderedLevel = lowRes) ∧
    (∀ (shapes : List (Fin 3 → ℕ)) (now : ℚ) (i : Fin 3),
      ((load_active_group shapes now).axes i).renderedLevel =
        shapes.length - 1) := by
  refine ⟨?_, ?_, ?_, ?_⟩
  · intro lowRes now s i
    rw [update_loop_axes]
    unfold step_axis
    split
    · rename_i h'
      exact Or.inr ⟨rfl, h'⟩
    · split
      · exact Or.inl (Nat.sub_le _ _)
      · exact Or.inl (le_refl _)
  · intro s a val now i
    show AxisState.renderedLevel (if i = a then _ else _) = _
    split <;> rfl
  · intro lowRes s i
    rfl
  · intro shapes now i
    rfl

/-- C9. The normalization of `render_slice` — right-shift by 8 bits then
`uint8` truncation — is a monotonic map of the 16-bit source range
`[0, 65535]` into `[0, 255]` (and it is a function, hence deterministic). -/
theorem shift_normalization_monotone_bounded (x y : ℕ)
    (hxy : x ≤ y) (hy : y ≤ 65535) :
    normalize_16_to_8 x ≤ normalize_16_to_8 y ∧ normalize_16_to_8 y ≤ 255 := by
  have hb : ∀ z, z ≤ 65535 → z >>> 8 ≤ 255 := by
    intro z hz
    rw [Nat.shiftRight_eq_div_pow]
    calc z / 2 ^ 8 ≤ 65535 / 2 ^ 8 := Nat.div_le_div_right hz
    _ = 255 := by norm_num
  have hxb := hb x (le_trans hxy hy)
  have hyb := hb y hy
  unfold normalize_16_to_8
  rw [Nat.mod_eq_of_lt (lt_of_le_of_lt hxb (by norm_num)),
    Nat.mod_eq_of_lt (lt_of_le_of_lt hyb (by norm_num))]
  refine ⟨?_, hyb⟩
  rw [Nat.shiftRight_eq_div_pow, Nat.shiftRight_eq_div_pow]
  exact Nat.div_le_div_right hxy

/-- Witness for C9: two in-range 16-bit samples in order. -/
theorem shift_normalization_monotone_bounded_witness :
    normalize_16_to_8 300 ≤ normalize_16_to_8 60000 ∧
    normalize_16_to_8 60000 ≤ 255 :=
  shift_normalization_monotone_bounded 300 60000 (by decide) (by decide)

/-! Fallible extraction.

`render_slice` (src/main.py lines 141-165) contains no `try`/`except`, and
neither does `update_loop`: `arr.compute()` on the dask array can raise on
a backing-store I/O failure.  `step_axis_exc` is `step_axis` where the
embedded `render_slice` call may raise (`failsHere`); because the state
assignments follow the `render_slice` call in the source, a raising axis
keeps its old state.  `update_loop_exc` is `update_loop` with this
fallible extraction: the first raise propagates out of the `for` loop,
so later axes are not evaluated at all that tick; the `Bool` in the result
records whether an exception escaped. -/

/-- One axis of the tick with fallible extraction. -/
def step_axis_exc (lowRes : ℕ) (failsHere m : Bool) (a : AxisState) :
    Except Unit (AxisState × Option ℕ) :=
  if a.index ≠ a.lastRenderedIndex then
    if failsHere then .error ()
    else .ok ({ a with lastRenderedIndex := a.index, renderedLevel := lowRes },
      some lowRes)
  else if m = false ∧ HIGH_RES < a.renderedLevel then
    if failsHere then .error ()
    else .ok ({ a with renderedLevel := a.renderedLevel - 1 },
      some (a.renderedLevel - 1))
  else .ok (a, none)

/-- The tick with fallible extraction; `fails i` says axis `i`'s
`render_slice` would raise this tick. -/
def update_loop_exc (lowRes : ℕ) (fails : Fin 3 → Bool) (now : ℚ)
    (s : ViewerState) : ViewerState × List RenderCall × Bool :=
  let m := is_moving now s.lastInteraction
  match step_axis_exc lowRes (fails 0) m (s.axes 0) with
  | .error _ => (s, [], true)
  | .ok (a0, o0) =>
    match step_axis_exc lowRes (fails 1) m (s.axes 1) with
    | .error _ =>
        ({ s with axes := fun i => if i = 0 then a0 else s.axes i },
          axis_renders 0 (s.axes 0) o0, true)
    | .ok (a1, o1) =>
      match step_axis_exc lowRes (fails 2) m (s.axes 2) with
      | .error _ =>
          ({ s with axes := fun i =>
              if i = 0 then a0 else if i = 1 then a1 else s.axes i },
            axis_renders 0 (s.axes 0) o0 ++ axis_renders 1 (s.axes 1) o1, true)
      | .ok (a2, o2) =>
          ({ s with axes := fun i =>
              if i = 0 then a0 else if i = 1 then a1 else a2 },
            axis_renders 0 (s.axes 0) o0 ++ axis_renders 1 (s.axes 1) o1
              ++ axis_renders 2 (s.axes 2) o2, false)

/-- A non-raising axis behaves exactly as in the infallible tick. -/
lemma step_axis_exc_ok (lowRes : ℕ) (m : Bool) (a : AxisState) :
    step_axis_exc lowRes false m a = .ok (step_axis lowRes m a) := by
  by_cases h1 : a.index ≠ a.lastRenderedIndex
  · simp [step_axis_exc, step_axis, h1]
  · by_cases h2 : m = false ∧ HIGH_RES < a.renderedLevel
    · simp [step_axis_exc, step_axis, h1, h2]
    · simp [step_axis_exc, step_axis, h1, h2]

/-- A raising axis that attempts a render produces the exception. -/
lemma step_axis_exc_raises (lowRes : ℕ) (m : Bool) (a : AxisState)
    (h : a.index ≠ a.lastRenderedIndex ∨
      (m = false ∧ HIGH_RES < a.renderedLevel)) :
    step_axis_exc lowRes true m a = .error () := by
  rcases h with h | h
  · simp [step_axis_exc, h]
  · by_cases h1 : a.index ≠ a.lastRenderedIndex
    · simp [step_axis_exc, h1]
    · simp [step_axis_exc, h1, h]

/-- C8, counterexample. A pyramid with `LOW_RES = 2`, all three axes stale
(slider at 50, sentinel `-1`): if axis 0's extraction raises, axis 1 gets
no render that tick, although with no failure axis 1 renders — one axis's
extraction failure does affect the other axes' scheduling, because the
exception aborts the `for` loop of `update_loop`. -/
theorem extraction_failure_not_isolated :
    rendersFor 1 (update_loop_exc 2 (fun i => decide (i = 0)) 1
        ⟨fun _ => ⟨50, -1, 2⟩, 0⟩).2.1 = [] ∧
    rendersFor 1 (update_loop_exc 2 (fun _ => false) 1
        ⟨fun _ => ⟨50, -1, 2⟩, 0⟩).2.1 = [⟨1, 50, 2⟩] := by
  decide

/-- C8, amended. If extraction raises for axis `j` while `j` attempts a
render and no earlier axis raises, then the exception escapes the tick;
axis `j` and every later axis keep their state unchanged (so the next tick
retries) and get no render, while every axis before `j` is scheduled
exactly as in a failure-free tick. -/
theorem extraction_failure_aborts_tick (lowRes : ℕ) (fails : Fin 3 → Bool)
    (now : ℚ) (s : ViewerState) (j : Fin 3)
    (hbefore : ∀ k : Fin 3, k < j → fails k = false)
    (hj : fails j = true)
    (hattempt : (s.axes j).index ≠ (s.axes j).lastRenderedIndex ∨
      (is_moving now s.lastInteraction = false ∧
        HIGH_RES < (s.axes j).renderedLevel)) :
    (update_loop_exc lowRes fails now s).2.2 = true ∧
    (∀ k : Fin 3, j ≤ k →
      (update_loop_exc lowRes fails now s).1.axes k = s.axes k ∧
      rendersFor k (update_loop_exc lowRes fails now s).2.1 = []) ∧
    (∀ k : Fin 3, k < j →
      (update_loop_exc lowRes fails now s).1.axes k =
        (update_loop lowRes now s).1.axes k ∧
      rendersFor k (update_loop_exc lowRes fails now s).2.1 =
        rendersFor k (update_loop lowRes now s).2) := by
  fin_cases j
  · -- axis 0 raises: nothing at all happens this tick
    have hj0 : fails 0 = true := hj
    have hatt : (s.axes 0).index ≠ (s.axes 0).lastRenderedIndex ∨
        (is_moving now s.lastInteraction = false ∧
          HIGH_RES < (s.axes 0).renderedLevel) := hattempt
    have hE0 : step_axis_exc lowRes (fails 0)
        (is_moving now s.lastInteraction) (s.axes 0) = .error () := by
      rw [hj0]
      exact step_axis_exc_raises _ _ _ hatt
    simp only [update_loop_exc, hE0]
    refine ⟨trivial, fun k _ => ⟨?_, ?_⟩,
        fun k hk => absurd hk (Nat.not_lt_zero k.1)⟩ <;>
      simp [rendersFor]
  · -- axis 1 raises: axis 0 already done, axes 1 and 2 skipped
    have hj1 : fails 1 = true := hj
    have h0 : fails 0 = false := hbefore 0 (by decide)
    have hatt : (s.axes 1).index ≠ (s.axes 1).lastRenderedIndex ∨
        (is_moving now s.lastInteraction = false ∧
          HIGH_RES < (s.axes 1).renderedLevel) := hattempt
    rcases hp0 : step_axis lowRes (is_moving now s.lastInteraction) (s.axes 0)
      with ⟨a0, o0⟩
    have hE0 : step_axis_exc lowRes (fails 0)
        (is_moving now s.lastInteraction) (s.axes 0) = .ok (a0, o0) := by
      rw [h0, step_axis_exc_ok, hp0]
    have hE1 : step_axis_exc lowRes (fails 1)
        (is_moving now s.lastInteraction) (s.axes 1) = .error () := by
      rw [hj1]
      exact step_axis_exc_raises _ _ _ hatt
    simp only [update_loop_exc, hE0, hE1]
    refine ⟨trivial, fun k hk => ?_, fun k hk => ?_⟩
    · fin_cases k
      · exact absurd hk (by decide)
      · refine ⟨rfl, ?_⟩
        show rendersFor 1 (axis_renders 0 (s.axes 0) o0) = []
        rw [rendersFor_axis_renders, if_neg (by decide)]
      · refine ⟨rfl, ?_⟩
        show rendersFor 2 (axis_renders 0 (s.axes 0) o0) = []
        rw [rendersFor_axis_renders, if_neg (by decide)]
    · fin_cases k
      · constructor
        · show a0 = (update_loop lowRes now s).1.axes 0
          rw [update_loop_axes, hp0]
        · show rendersFor 0 (axis_renders 0 (s.axes 0) o0) =
            rendersFor 0 (update_loop lowRes now s).2
          rw [update_loop_rendersFor, hp0, rendersFor_axis_renders, if_pos rfl]
      · exact absurd hk (by decide)
      · exact absurd hk (by decide)
  · -- axis 2 raises: axes 0 and 1 already done, axis 2 skipped
    have hj2 : fails 2 = true := hj
    have h0 : fails 0 = false := hbefore 0 (by decide)
    have h1 : fails 1 = false := hbefore 1 (by decide)
    have hatt : (s.axes 2).index ≠ (s.axes 2).lastRenderedIndex ∨
        (is_moving now s.lastInteraction = false ∧
          HIGH_RES < (s.axes 2).renderedLevel) := hattempt
    rcases hp0 : step_axis lowRes (is_moving now s.lastInteraction) (s.axes 0)
      with ⟨a0, o0⟩
    rcases hp1 : step_axis lowRes (is_moving now s.lastInteraction) (s.axes 1)
      with ⟨a1, o1⟩
    have hE0 : step_axis_exc lowRes (fails 0)
        (is_moving now s.lastInteraction) (s.axes 0) = .ok (a0, o0) := by
      rw [h0, step_axis_exc_ok, hp0]
    have hE1 : step_axis_exc lowRes (fails 1)
        (is_moving now s.lastInteraction) (s.axes 1) = .ok (a1, o1) := by
      rw [h1, step_axis_exc_ok, hp1]
    have hE2 : step_axis_exc lowRes (fails 2)
        (is_moving now s.lastInteraction) (s.axes 2) = .error () := by
      rw [hj2]
      exact step_axis_exc_raises _ _ _ hatt
    simp only [update_loop_exc, hE0, hE1, hE2]
    refine ⟨trivial, fun k hk => ?_, fun k hk => ?_⟩
    · fin_cases k
      · exact absurd hk (by decide)
      · exact absurd hk (by decide)
      · refine ⟨rfl, ?_⟩
        show rendersFor 2 (axis_renders 0 (s.axes 0) o0 ++
          axis_renders 1 (s.axes 1) o1) = []
        rw [rendersFor_append, rendersFor_axis_renders, rendersFor_axis_renders,
          if_neg (by decide), if_neg (by decide)]
        rfl
    · fin_cases k
      · constructor
        · show a0 = (update_loop lowRes now s).1.axes 0
          rw [update_loop_axes, hp0]
        · show rendersFor 0 (axis_renders 0 (s.axes 0) o0 ++
            axis_renders 1 (s.axes 1) o1) =
            rendersFor 0 (update_loop lowRes now s).2
          rw [update_loop_rendersFor, hp0, rendersFor_append,
            rendersFor_axis_renders, rendersFor_axis_renders,
            if_pos rfl, if_neg (by decide)]
          exact List.append_nil _
      · constructor
        · show a1 = (update_loop lowRes now s).1.axes 1
          rw [update_loop_axes, hp1]
        · show rendersFor 1 (axis_renders 0 (s.axes 0) o0 ++
            axis_renders 1 (s.axes 1) o1) =
            rendersFor 1 (update_loop lowRes now s).2
          rw [update_loop_rendersFor, hp1, rendersFor_append,
            rendersFor_axis_renders, rendersFor_axis_renders,
            if_neg (by decide), if_pos rfl]
          exact List.nil_append _
      · exact absurd hk (by decide)

/-- Witness for C8 (amended): `LOW_RES = 2`, all axes stale, axis 1's
extraction raises: the exception escapes, axis 1 keeps its state and gets
no render, and axis 0 — earlier in the loop — is scheduled as in a normal
tick (a `LOW_RES` render at its index 50). -/
theorem extraction_failure_aborts_tick_witness :
    (update_loop_exc 2 (fun i => decide (i = 1)) 1
        ⟨fun _ => ⟨50, -1, 2⟩, 0⟩).2.2 = true ∧
    (update_loop_exc 2 (fun i => decide (i = 1)) 1
        ⟨fun _ => ⟨50, -1, 2⟩, 0⟩).1.axes 1 = ⟨50, -1, 2⟩ ∧
    rendersFor 1 (update_loop_exc 2 (fun i => decide (i = 1)) 1
        ⟨fun _ => ⟨50, -1, 2⟩, 0⟩).2.1 = [] ∧
    rendersFor 0 (update_loop_exc 2 (fun i => decide (i = 1)) 1
        ⟨fun _ => ⟨50, -1, 2⟩, 0⟩).2.1 = [⟨0, 50, 2⟩] := by
  have h := extraction_failure_aborts_tick 2 (fun i : Fin 3 => decide (i = 1)) 1
    ⟨fun _ => ⟨50, -1, 2⟩, 0⟩ 1 (by decide) (by decide) (Or.inl (by decide))
  refine ⟨h.1, (h.2.1 1 (by decide)).1, (h.2.1 1 (by decide)).2, ?_⟩
  rw [(h.2.2 0 (by decide)).2]
  decide

end VoxelViz
